import Mathlib

/-!
Verification of the page-analysis and site-crawl pipeline of the
web-site-checker backend (src/backend/src/services/checker.js).

The JavaScript service is shallowly embedded: each analyzer becomes a Lean
function over a structured model of its input (the rendered markup, the
parsed URLs, the navigation outcomes), browser I/O becomes explicit
environment functions, and thrown exceptions become Except/Option values.
Wall-clock timestamps carried by result records are elided, since no claim
depends on them.
-/

namespace WebChecker

/-! ## JS string primitives

The JS string operations the service uses are modelled over the
character-list representation of Lean strings, with structural recursion
(keeping every definition kernel-computable). -/

def jsToLower (s : String) : String := ⟨s.data.map Char.toLower⟩

/-- JS String.prototype.startsWith. -/
def jsStartsWith (s pat : String) : Bool := pat.data.isPrefixOf s.data

/-- JS String.prototype.endsWith. -/
def jsEndsWith (s pat : String) : Bool := pat.data.isSuffixOf s.data

/-- JS slice(0, -1): drop the final character. -/
def jsDropLast (s : String) : String := ⟨s.data.dropLast⟩

def hasSubstr (pat : List Char) : List Char → Bool
  | [] => pat.isEmpty
  | l@(_ :: rest) => pat.isPrefixOf l || hasSubstr pat rest

/-- JS String.prototype.includes. -/
def strContains (s pat : String) : Bool := hasSubstr pat.data s.data

def splitSlashAux : List Char → List Char → List String
  | [], acc => [⟨acc.reverse⟩]
  | '/' :: rest, acc => String.mk acc.reverse :: splitSlashAux rest []
  | c :: rest, acc => splitSlashAux rest (c :: acc)

/-- JS String.prototype.split('/'). -/
def jsSplitSlash (s : String) : List String := splitSlashAux s.data []

/-- Array.prototype.join('/'). -/
def joinSlash : List String → String
  | [] => ""
  | [x] => x
  | x :: rest => x ++ "/" ++ joinSlash rest

/-- JS String.prototype.trim. -/
def jsTrim (s : String) : String :=
  ⟨(((s.data.dropWhile Char.isWhitespace).reverse.dropWhile
      Char.isWhitespace).reverse)⟩

/-- The leading-whitespace skip of JS parseInt. -/
def jsTrimLeft (s : String) : List Char := s.data.dropWhile Char.isWhitespace

/-! ## Crawl orchestrator (crawlSite, checker.js lines 106-137) -/

/-- One entry of the crawl results list: either a full page result delivered
by checkSinglePage, or the minimal error record built by the per-page catch
handler (url, error message; the timestamp field is elided). -/
inductive CrawlEntry (α : Type) where
  | ok (result : α)
  | failed (url : String) (error : String)
  deriving Repr, DecidableEq

/-- The aggregate crawl result: startUrl, totalPages, results (timestamp and
auth echoes elided). -/
structure CrawlResult (α : Type) where
  startUrl : String
  totalPages : Nat
  results : List (CrawlEntry α)
  deriving Repr, DecidableEq

/-- The JS expression in the per-page catch handler:
error?.message || 'Unknown error occurred'.  A missing message is modelled
as the empty string; both fall back to the default. -/
def errMsg (m : String) : String :=
  if m = "" then "Unknown error occurred" else m

/-- One guarded per-page call:
checkSinglePage(url, auth).catch(error => (url, error, timestamp)).
The outcome of checkSinglePage for each URL is supplied by the caller as
an environment function (it involves browser I/O). -/
def guardedCheck (analyze : String → Except String α) (url : String) :
    CrawlEntry α :=
  match analyze url with
  | .ok r => .ok r
  | .error e => .failed url (errMsg e)

/-- One batch: batch.map(url => checkSinglePage(url, auth).catch(...)),
jointly awaited by Promise.all. -/
def runBatch (analyze : String → Except String α) (batch : List String) :
    List (CrawlEntry α) :=
  batch.map (guardedCheck analyze)

/-- The slicing of urlsToAnalyze into batches:
for (let i = 0; i < urls.length; i += 3) batch = urls.slice(i, i + 3).
Spelled by cases so the recursion is structural. -/
def batches3 : List α → List (List α)
  | [] => []
  | [a] => [[a]]
  | [a, b] => [[a, b]]
  | a :: b :: c :: rest => [a, b, c] :: batches3 rest

/-- The batch loop of crawlSite.  After each batch settles and its results
are appended, the progress log evaluates urls.length on the ORIGINAL urls
argument; when that argument was null (urls not supplied) this member
access throws a TypeError, which rejects the whole crawl. -/
def crawlBatches (analyze : String → Except String α) (urlsIsNull : Bool) :
    List String → Except String (List (CrawlEntry α))
  | [] => .ok []
  | [a] =>
    let batchResults := runBatch analyze [a]
    if urlsIsNull then
      .error "TypeError: Cannot read properties of null (reading 'length')"
    else .ok batchResults
  | [a, b] =>
    let batchResults := runBatch analyze [a, b]
    if urlsIsNull then
      .error "TypeError: Cannot read properties of null (reading 'length')"
    else .ok batchResults
  | a :: b :: c :: rest =>
    let batchResults := runBatch analyze [a, b, c]
    if urlsIsNull then
      .error "TypeError: Cannot read properties of null (reading 'length')"
    else
      match crawlBatches analyze urlsIsNull rest with
      | .ok more => .ok (batchResults ++ more)
      | .error e => .error e

/-- crawlSite(startUrl, urls = null, auth = null).  The Link Discoverer run
(discoverUrls) is supplied as the discover argument; it is invoked exactly
when urls is not supplied (null), matching urls || await discoverUrls(...).
An empty array argument is truthy in JS and is NOT replaced by discovery. -/
def crawlSite (discover : String → List String)
    (analyze : String → Except String α) (startUrl : String)
    (urls : Option (List String)) : Except String (CrawlResult α) :=
  let urlsToAnalyze := match urls with
    | some us => us
    | none => discover startUrl
  match crawlBatches analyze urls.isNone urlsToAnalyze with
  | .ok results => .ok ⟨startUrl, results.length, results⟩
  | .error e => .error e

/-! ## Link Discoverer / Crawl Planner (countPages lines 961-1104,
discoverUrls lines 1112-1251) -/

/-- A structured absolute URL as produced by the URL parser
(new URL(...), an external collaborator).  Only the projections the
filtering code reads are modelled: origin is scheme ++ // ++ hostname,
searchParams keeps the query parameter names (only .has is used). -/
structure Url where
  scheme : String
  hostname : String
  pathname : String
  searchParams : List String
  deriving Repr, DecidableEq

def Url.origin (u : Url) : String := u.scheme ++ "//" ++ u.hostname

/-- linkUrl.origin + linkUrl.pathname: normalization that strips fragment
and query. -/
def Url.normalized (u : Url) : String := u.origin ++ u.pathname

/-- The excludeExtensions array. -/
def excludeExtensions : List String :=
  [".pdf", ".jpg", ".jpeg", ".png", ".gif", ".svg", ".ico", ".css", ".js",
   ".xml", ".txt", ".zip", ".doc", ".docx", ".xls", ".xlsx", ".ppt", ".pptx"]

/-- The excludePatterns array (plain substring tests on the lowercased
normalized URL). -/
def excludePathPatterns : List String :=
  ["/wp-admin/", "/admin/", "/login", "/logout", "/search", "/contact",
   "/mailto:", "/tel:", "/feed", "/rss", "/api/", "/.well-known/"]

/-- A character of the regex class [0-9a-f] under the /i flag. -/
def isHexDigitCI (c : Char) : Bool :=
  c.isDigit || (('a' ≤ c && c ≤ 'f') || ('A' ≤ c && c ≤ 'F'))

/-- Test of the regex /%[0-9a-f]\x7b2\x7d/i : some position starts with a
percent-encoded octet. -/
def hasEncodedChars : List Char → Bool
  | '%' :: a :: b :: rest =>
    (isHexDigitCI a && isHexDigitCI b) || hasEncodedChars (a :: b :: rest)
  | _ :: rest => hasEncodedChars rest
  | [] => false

/-- Test of the regex /%e[0-9a-f]|%8[0-9a-f]|%9[0-9a-f]/i used to reject
percent-encodings in the Japanese byte ranges. -/
def hasJapaneseEncoding : List Char → Bool
  | '%' :: a :: b :: rest =>
    ((a == 'e' || a == 'E' || a == '8' || a == '9') && isHexDigitCI b)
      || hasJapaneseEncoding (a :: b :: rest)
  | _ :: rest => hasJapaneseEncoding rest
  | [] => false

/-- Number of matches of the global regex /%[0-9a-f]\x7b2\x7d/gi (scanning
left to right, non-overlapping). -/
def countEncodedOctets : List Char → Nat
  | '%' :: a :: b :: rest =>
    if isHexDigitCI a && isHexDigitCI b then countEncodedOctets rest + 1
    else countEncodedOctets (a :: b :: rest)
  | _ :: rest => countEncodedOctets rest
  | [] => 0

/-- One atom of the WordPress-pattern regexes: a literal character or the
\d class. -/
inductive CPat where
  | lit (c : Char)
  | digit
  deriving Repr, DecidableEq

def cpatMatches (p : CPat) (c : Char) : Bool :=
  match p with
  | .lit c0 => c == c0
  | .digit => c.isDigit

/-- The pattern matches at the head of the character list. -/
def cpatHeadMatch : List CPat → List Char → Bool
  | [], _ => true
  | _ :: _, [] => false
  | p :: ps, c :: cs => cpatMatches p c && cpatHeadMatch ps cs

/-- The pattern matches at some position (unanchored regex test). -/
def cpatScan (ps : List CPat) : List Char → Bool
  | [] => cpatHeadMatch ps []
  | l@(_ :: rest) => cpatHeadMatch ps l || cpatScan ps rest

/-- The pattern matches exactly at the end ($-anchored regex test). -/
def cpatSuffix (ps : List CPat) (l : List Char) : Bool :=
  cpatHeadMatch ps (l.drop (l.length - ps.length))

def litPat (s : String) : List CPat := s.data.map CPat.lit

/-- The wpExcludePatterns regexes, tested against the (lowercased, matching
the /i flags) pathname. -/
def wpExcluded (path : String) : Bool :=
  let p := (jsToLower path).data
  cpatScan (litPat "/page/" ++ [.digit]) p ||
  cpatScan (litPat "/paged/" ++ [.digit]) p ||
  cpatScan (litPat "/category/") p ||
  cpatScan (litPat "/tag/") p ||
  cpatScan (litPat "/author/") p ||
  cpatScan ([.lit '/', .digit, .digit, .digit, .digit, .lit '/',
             .digit, .digit, .lit '/']) p ||
  cpatSuffix [.lit '/', .digit, .digit, .digit, .digit, .lit '/'] p ||
  cpatScan (litPat "/trackback") p ||
  cpatScan (litPat "/comment-page-" ++ [.digit]) p ||
  cpatScan (litPat "/attachment/") p ||
  cpatScan (litPat "/embed/") p ||
  cpatScan (litPat "/wp-content/") p ||
  cpatScan (litPat "/wp-includes/") p ||
  cpatScan (litPat "/xmlrpc.php") p ||
  cpatScan (litPat "/wp-sitemap") p

/-- The query parameter names whose presence excludes a link. -/
def excludedQueryParams : List String :=
  ["page", "paged", "p", "cat", "tag", "author"]

/-- The per-link filtering body of the discovery for-loop: returns the
final normalized URL to enqueue when the link survives every filter.
The trailing-slash strip runs AFTER the extension check, on the already
normalized URL. -/
def filterLink (startDomain : String) (link : Url) : Option String :=
  if link.hostname ≠ startDomain then none
  else
    let normalizedUrl := link.normalized
    if excludeExtensions.any (fun ext => jsEndsWith (jsToLower normalizedUrl) ext) then none
    else if excludePathPatterns.any (fun pat => strContains (jsToLower normalizedUrl) pat) then none
    else
      let path := link.pathname
      if hasEncodedChars path.data &&
         (hasJapaneseEncoding path.data || countEncodedOctets path.data > 2) then none
      else if wpExcluded path then none
      else if excludedQueryParams.any (fun q => link.searchParams.contains q) then none
      else
        let finalUrl :=
          if jsEndsWith normalizedUrl "/" && normalizedUrl ≠ link.origin ++ "/" then
            jsDropLast normalizedUrl
          else normalizedUrl
        some finalUrl

/-- The inner for-loop over the links of one visited page: each surviving,
not-yet-visited, not-yet-queued final URL is pushed onto the queue. -/
def enqueueLinks (startDomain : String) (visited : List String) :
    List Url → List String → List String
  | [], toVisit => toVisit
  | link :: rest, toVisit =>
    let toVisit' :=
      match filterLink startDomain link with
      | none => toVisit
      | some finalUrl =>
        if visited.contains finalUrl || toVisit.contains finalUrl then toVisit
        else toVisit ++ [finalUrl]
    enqueueLinks startDomain visited rest toVisit'

/-- Navigation environment: maps a queued (normalized) URL to the parsed
http(s) links extracted from that page, or none when navigation fails
(the catch treats a failed page as yielding no further links). -/
def LinkEnv : Type := String → Option (List Url)

/-- The while (toVisit.length > 0) loop shared by countPages and
discoverUrls.  The JS loop can run forever on an unbounded link graph, so
the embedding takes explicit fuel; every claim is proved for all fuel. -/
def crawlLoop (env : LinkEnv) (startDomain : String) :
    Nat → List String → List String → List String → List String
  | 0, _, _, discovered => discovered
  | fuel + 1, visited, toVisit, discovered =>
    match toVisit with
    | [] => discovered
    | currentUrl :: restQueue =>
      if visited.contains currentUrl then
        crawlLoop env startDomain fuel visited restQueue discovered
      else
        let visited' := currentUrl :: visited
        let discovered' := discovered ++ [currentUrl]
        let links := (env currentUrl).getD []
        let toVisit' := enqueueLinks startDomain visited' links restQueue
        crawlLoop env startDomain fuel visited' toVisit' discovered'

/-- Normalization of the start URL: origin + pathname, trailing slash
stripped unless the result is the bare root. -/
def normalizeStart (startUrl : Url) : String :=
  let normalizedStartUrl := startUrl.origin ++ startUrl.pathname
  if jsEndsWith normalizedStartUrl "/" &&
     normalizedStartUrl ≠ startUrl.origin ++ "/" then
    jsDropLast normalizedStartUrl
  else normalizedStartUrl

/-- discoverUrls(startUrl, auth): full breadth-first discovery returning
the list of discovered URLs in discovery order. -/
def discoverUrls (env : LinkEnv) (fuel : Nat) (startUrl : Url) : List String :=
  crawlLoop env startUrl.hostname fuel [] [normalizeStart startUrl] []

/-! countPages duplicates the whole traversal verbatim (the JS bodies are
identical except for the name of the caught exception); the duplicate
definitions below mirror that second copy. -/

/-- The per-link filtering body, as duplicated inside countPages. -/
def filterLinkC (startDomain : String) (link : Url) : Option String :=
  if link.hostname ≠ startDomain then none
  else
    let normalizedUrl := link.normalized
    if excludeExtensions.any (fun ext => jsEndsWith (jsToLower normalizedUrl) ext) then none
    else if excludePathPatterns.any (fun pat => strContains (jsToLower normalizedUrl) pat) then none
    else
      let path := link.pathname
      if hasEncodedChars path.data &&
         (hasJapaneseEncoding path.data || countEncodedOctets path.data > 2) then none
      else if wpExcluded path then none
      else if excludedQueryParams.any (fun q => link.searchParams.contains q) then none
      else
        let finalUrl :=
          if jsEndsWith normalizedUrl "/" && normalizedUrl ≠ link.origin ++ "/" then
            jsDropLast normalizedUrl
          else normalizedUrl
        some finalUrl

/-- The inner for-loop over links, as duplicated inside countPages. -/
def enqueueLinksC (startDomain : String) (visited : List String) :
    List Url → List String → List String
  | [], toVisit => toVisit
  | link :: rest, toVisit =>
    let toVisit' :=
      match filterLinkC startDomain link with
      | none => toVisit
      | some finalUrl =>
        if visited.contains finalUrl || toVisit.contains finalUrl then toVisit
        else toVisit ++ [finalUrl]
    enqueueLinksC startDomain visited rest toVisit'

/-- The while loop, as duplicated inside countPages. -/
def crawlLoopC (env : LinkEnv) (startDomain : String) :
    Nat → List String → List String → List String → List String
  | 0, _, _, discovered => discovered
  | fuel + 1, visited, toVisit, discovered =>
    match toVisit with
    | [] => discovered
    | currentUrl :: restQueue =>
      if visited.contains currentUrl then
        crawlLoopC env startDomain fuel visited restQueue discovered
      else
        let visited' := currentUrl :: visited
        let discovered' := discovered ++ [currentUrl]
        let links := (env currentUrl).getD []
        let toVisit' := enqueueLinksC startDomain visited' links restQueue
        crawlLoopC env startDomain fuel visited' toVisit' discovered'

/-- The result shape of countPages. -/
structure PageCount where
  totalPages : Nat
  urls : List String
  deriving Repr, DecidableEq

/-- countPages(startUrl, auth): the crawl-planning preview. -/
def countPages (env : LinkEnv) (fuel : Nat) (startUrl : Url) : PageCount :=
  let discovered := crawlLoopC env startUrl.hostname fuel [] [normalizeStart startUrl] []
  { totalPages := discovered.length, urls := discovered }

/-! ## Heading Analyzer (analyzeHeadings, lines 431-483) -/

/-- One heading element (h1-h6) of the rendered document, in document
order: its level parsed from the tag name, its raw text content
($(heading).text()), and the number of descendant img elements. -/
structure Heading where
  level : Nat
  text : String
  imgCount : Nat
  deriving Repr, DecidableEq

/-- An issue record of the heading analyzer. -/
structure HeadingIssue where
  type : String
  element : Option String
  message : String
  severity : String
  deriving Repr, DecidableEq

def headingTag (level : Nat) : String := "h" ++ toString level

/-- The forEach walk over the headings: empty-heading errors and
level-skip warnings, threading index and previousLevel. -/
def analyzeHeadingsWalk : List Heading → Nat → Nat → List HeadingIssue
  | [], _, _ => []
  | h :: rest, index, previousLevel =>
    let text := jsTrim h.text
    let emptyIssues :=
      if text = "" && h.imgCount = 0 then
        [⟨"空の見出し", some (headingTag h.level), "見出しが空です", "error"⟩]
      else []
    let skipIssues :=
      if index > 0 && h.level > previousLevel + 1 then
        [⟨"見出しレベルスキップ", some (headingTag h.level),
          "見出しレベルがh" ++ toString previousLevel ++ "からh" ++
            toString h.level ++ "にスキップしています", "warning"⟩]
      else []
    emptyIssues ++ skipIssues ++ analyzeHeadingsWalk rest (index + 1) h.level

/-- The issue pushed when the document has no h1. -/
def missingH1Issue : HeadingIssue :=
  ⟨"h1なし", none, "h1見出しが見つかりません", "error"⟩

/-- The issue pushed when the document has n > 1 h1 elements; the message
names the count. -/
def multipleH1Issue (n : Nat) : HeadingIssue :=
  ⟨"複数h1", none, "h1見出しが複数あります（" ++ toString n ++ "個）",
   "warning"⟩

/-- analyzeHeadings: the walk issues followed by the h1-count check
($('h1').length over the same document). -/
def analyzeHeadings (headings : List Heading) : List HeadingIssue :=
  let walkIssues := analyzeHeadingsWalk headings 0 0
  let h1Count := (headings.filter (fun h => h.level == 1)).length
  let h1Issues :=
    if h1Count = 0 then [missingH1Issue]
    else if h1Count > 1 then [multipleH1Issue h1Count]
    else []
  walkIssues ++ h1Issues

/-! ## Performance fallback scores (calculateBasicScores, lines 244-302) -/

/-- The metrics snapshot page.evaluate collects for the fallback path. -/
structure BasicMetrics where
  hasTitle : Bool
  hasDescription : Bool
  hasH1 : Bool
  imagesWithoutAlt : Nat
  totalImages : Nat
  resourceCount : Nat
  deriving Repr, DecidableEq

/-- The four 0-100 scores (named as in the source, with bestpractices
lowercase). -/
structure Scores where
  performance : Int
  accessibility : Int
  bestpractices : Int
  seo : Int
  deriving Repr, DecidableEq

/-- The result shape of calculateBasicScores: scores plus the (always
empty) accessibility findings list. -/
structure BasicScoreResult where
  scores : Scores
  accessibility : List String
  deriving Repr, DecidableEq

/-- The score arithmetic of the fallback path.  loadTime is the measured
navigation latency in ms (a nonnegative integer); Math.floor(loadTime/50)
is Nat division. -/
def computeBasicScores (loadTime : Nat) (m : BasicMetrics) : Scores :=
  { performance := max 0 (100 - Int.ofNat (loadTime / 50))
    accessibility := max 0 (100 - Int.ofNat m.imagesWithoutAlt * 10)
    bestpractices := max 0 (100 - max 0 (Int.ofNat m.resourceCount - 50))
    seo := (if m.hasTitle then 40 else 0) + (if m.hasDescription then 40 else 0)
      + (if m.hasH1 then 20 else 0) }

/-- calculateBasicScores(url, browser).  The measurement environment is
some (loadTime, metrics) when the probe page navigates and evaluates, and
none when the fallback itself throws; the catch then returns all-zero
scores and an empty findings list. -/
def calculateBasicScores (measurement : Option (Nat × BasicMetrics)) :
    BasicScoreResult :=
  match measurement with
  | some (loadTime, m) => { scores := computeBasicScores loadTime m, accessibility := [] }
  | none => { scores := ⟨0, 0, 0, 0⟩, accessibility := [] }

/-! ## Image analysis (getAllImages lines 490-588, analyzeImages lines
595-704; the shared relative-src resolution snippet appears at lines
501-511 and 606-616) -/

/-- JS truthiness of an attribute read: the attribute is absent
(undefined) or the empty string. -/
def optTruthy : Option String → Bool
  | none => false
  | some s => s ≠ ""

/-- Resolution performed by new URL(src, base).href of the WHATWG URL
library (an external collaborator), modelled for the absolute-path and
path-relative references this code hands it: the base splits on / into
scheme, empty, host, then path segments. -/
def newUrlResolve (src base : String) : String :=
  let parts := jsSplitSlash base
  let origin := parts.headD "" ++ "//" ++ (parts.getD 2 "")
  if jsStartsWith src "/" then origin ++ src
  else origin ++ "/" ++ joinSlash ((parts.drop 3).dropLast ++ [src])

/-- The repeated relative-to-absolute src conversion: http(s) and data:
URLs pass through; protocol-relative srcs get the https: scheme by string
concatenation; root-relative and relative srcs go through new URL against
the ambient current URL (global.currentUrl, here an explicit argument). -/
def resolveSrc (currentUrl : String) (src : Option String) : Option String :=
  match src with
  | none => none
  | some s =>
    if s ≠ "" && !jsStartsWith s "http" && !jsStartsWith s "data:" then
      if jsStartsWith s "//" then some ("https:" ++ s)
      else if jsStartsWith s "/" then some (newUrlResolve s currentUrl)
      else some (newUrlResolve s currentUrl)
    else some s

/-- One img element as the analyzer reads it: raw attribute values
(none = attribute absent) and the DOM context used by getAllImages. -/
structure Img where
  src : Option String
  alt : Option String
  title : Option String
  width : Option String
  height : Option String
  loading : Option String
  inHeader : Bool
  inNav : Bool
  inFooter : Bool
  inPicture : Bool
  pictureWebpSources : List (Option String × String × String)
  deriving Repr, DecidableEq

/-- One inline svg element as the analyzer reads it. -/
structure SvgEl where
  role : Option String
  ariaLabel : Option String
  ariaLabelledby : Option String
  titleText : String
  width : Option String
  height : Option String
  classAttr : Option String
  id : Option String
  deriving Repr, DecidableEq

/-- An issue record of the image analyzer (duck-typed in the source; the
optional fields cover the img and svg variants). -/
structure ImgIssue where
  type : String
  element : String
  src : Option String
  message : String
  severity : String
  fileSize : Option Nat
  deriving Repr, DecidableEq

/-- The best-effort HEAD-probe file-size check per image: the size
environment returns the content-length when the fetch succeeds and the
header is present; network failures and absent headers yield none and are
swallowed.  sizeInMB >= 1 holds exactly when the byte count reaches
1048576 (the MB figure printed in the message is elided). -/
def sizeIssues (sizeEnv : String → Option Nat) (absoluteSrc : Option String) :
    List ImgIssue :=
  match absoluteSrc with
  | some s =>
    if s ≠ "" && !jsStartsWith s "data:" then
      match sizeEnv s with
      | some bytes =>
        if bytes ≥ 1048576 then
          [⟨"ファイルサイズ過大", "img", some s,
            "画像ファイルサイズが1MB以上です。1MB以上の画像は表示速度に影響します",
            "warning", some bytes⟩]
        else []
      | none => []
    else []
  | none => []

/-- The missing-alt error record, carrying the resolved absolute source. -/
def missingAltIssue (absoluteSrc : Option String) : ImgIssue :=
  ⟨"alt属性なし", "img", absoluteSrc, "alt属性が設定されていません", "error", none⟩

/-- The per-img body of the analyzeImages for-loop: missing alt attribute
(strict === undefined comparison, so an empty-string alt passes), missing
width/height (falsy check, so empty strings count as missing), then the
file-size probe. -/
def imgIssues (currentUrl : String) (sizeEnv : String → Option Nat)
    (img : Img) : List ImgIssue :=
  let absoluteSrc := resolveSrc currentUrl img.src
  let missingAlt :=
    if img.alt = none then [missingAltIssue absoluteSrc]
    else []
  let missingDims :=
    if !optTruthy img.width || !optTruthy img.height then
      [⟨"サイズ不備", "img", absoluteSrc,
        "width属性またはheight属性が設定されていません", "warning", none⟩]
    else []
  missingAlt ++ missingDims ++ sizeIssues sizeEnv absoluteSrc

/-- The per-svg accessibility check: accessible when role is img or
presentation, or an aria-label/aria-labelledby/title is present. -/
def svgIssues (svg : SvgEl) : List ImgIssue :=
  if svg.role ≠ some "img" && svg.role ≠ some "presentation" &&
     !optTruthy svg.ariaLabel && !optTruthy svg.ariaLabelledby &&
     svg.titleText = "" then
    [⟨"SVGアクセシビリティ", "svg", none,
      "SVGにアクセシブルな説明が設定されていません。装飾目的なら role=presentation を追加してください。",
      "warning", none⟩]
  else []

/-- analyzeImages($): the img loop followed by the svg loop. -/
def analyzeImages (currentUrl : String) (sizeEnv : String → Option Nat)
    (imgs : List Img) (svgs : List SvgEl) : List ImgIssue :=
  (imgs.map (imgIssues currentUrl sizeEnv)).flatten ++
    (svgs.map svgIssues).flatten

/-- JS parseInt on an attribute string, for the decimal inputs this code
feeds it: leading whitespace skipped, optional sign, then the leading
digit run; none models NaN (no leading digit). -/
def digitsAcc : Nat → List Char → Nat
  | acc, c :: rest => if c.isDigit then digitsAcc (acc * 10 + (c.toNat - 48)) rest else acc
  | acc, [] => acc

def digitsLeadVal : List Char → Option Nat
  | c :: rest => if c.isDigit then some (digitsAcc 0 (c :: rest)) else none
  | [] => none

def jsParseInt (s : String) : Option Int :=
  match jsTrimLeft s with
  | '-' :: rest => (digitsLeadVal rest).map (fun n => -(n : Int))
  | '+' :: rest => (digitsLeadVal rest).map (fun n => (n : Int))
  | l => (digitsLeadVal l).map (fun n => (n : Int))

/-- The record getAllImages builds for each img or svg.  The type field is
none for img records (the source object carries no type key there) and
some svg for svg records; for svg records, the header/nav/footer/picture
fields absent from the source object are modelled by their defaults. -/
structure ImageRecord where
  index : Nat
  src : Option String
  originalSrc : Option String
  alt : String
  title : String
  width : Option Int
  height : Option Int
  hasAlt : Bool
  hasDimensions : Bool
  filename : String
  isInHeader : Bool
  isInNav : Bool
  isInFooter : Bool
  location : String
  isInPicture : Bool
  hasWebPAlternative : Bool
  webpSources : List (String × String × String)
  loading : Option String
  hasLazyLoading : Bool
  type : Option String
  role : Option String
  deriving Repr, DecidableEq

/-- The record built for the img at (zero-based) position idx. -/
def imgRecord (currentUrl : String) (idx : Nat) (img : Img) : ImageRecord :=
  let src := img.src
  let absoluteSrc := resolveSrc currentUrl src
  let webp := if img.inPicture then
      (img.pictureWebpSources.filter (fun s => optTruthy s.1)).map
        (fun s => (s.1.getD "", s.2.1, s.2.2))
    else []
  { index := idx + 1
    src := absoluteSrc
    originalSrc := src
    alt := img.alt.getD ""
    title := img.title.getD ""
    width := if optTruthy img.width then jsParseInt (img.width.getD "") else none
    height := if optTruthy img.height then jsParseInt (img.height.getD "") else none
    hasAlt := optTruthy img.alt
    hasDimensions := optTruthy img.width && optTruthy img.height
    filename := if optTruthy src then (jsSplitSlash (src.getD "")).getLastD "" else "unknown"
    isInHeader := img.inHeader
    isInNav := img.inNav
    isInFooter := img.inFooter
    location := if img.inHeader then "header" else if img.inNav then "nav"
      else if img.inFooter then "footer" else "content"
    isInPicture := img.inPicture
    hasWebPAlternative := !webp.isEmpty
    webpSources := webp
    loading := if optTruthy img.loading then img.loading else none
    hasLazyLoading := img.loading == some "lazy"
    type := none
    role := none }

/-- The record built for the svg pushed when the list already holds
prevCount records (index := images.length + 1 at push time). -/
def svgRecord (prevCount : Nat) (svg : SvgEl) : ImageRecord :=
  { index := prevCount + 1
    src := some "svg-inline"
    originalSrc := some "svg-inline"
    alt := if optTruthy svg.ariaLabel then svg.ariaLabel.getD "" else svg.titleText
    title := svg.titleText
    width := if optTruthy svg.width then jsParseInt (svg.width.getD "") else none
    height := if optTruthy svg.height then jsParseInt (svg.height.getD "") else none
    hasAlt := optTruthy svg.ariaLabel || svg.titleText ≠ ""
    hasDimensions := optTruthy svg.width && optTruthy svg.height
    filename := "inline-svg"
    isInHeader := false
    isInNav := false
    isInFooter := false
    location := ""
    isInPicture := false
    hasWebPAlternative := false
    webpSources := []
    loading := none
    hasLazyLoading := false
    type := some "svg"
    role := svg.role }

def imgRecordsFrom (currentUrl : String) : Nat → List Img → List ImageRecord
  | _, [] => []
  | idx, im :: rest => imgRecord currentUrl idx im :: imgRecordsFrom currentUrl (idx + 1) rest

def svgRecordsFrom : Nat → List SvgEl → List ImageRecord
  | _, [] => []
  | prevCount, sv :: rest => svgRecord prevCount sv :: svgRecordsFrom (prevCount + 1) rest

/-- getAllImages($): all img records in document order, then all svg
records. -/
def getAllImages (currentUrl : String) (imgs : List Img) (svgs : List SvgEl) :
    List ImageRecord :=
  imgRecordsFrom currentUrl 0 imgs ++ svgRecordsFrom imgs.length svgs

/-- The 0/1 integer of a JS boolean used in the claimed score formulas. -/
def btoi (b : Bool) : Int := if b then 1 else 0

/-- The page-analysis outcome used by the C2 witness: URL b throws, every
other URL yields itself as its page result. -/
def c2analyze (u : String) : Except String String :=
  if u = "b" then Except.error "navigation timeout" else Except.ok u

/-- The concrete img with an empty-string alt used by the C10 witness. -/
def c10img : Img :=
  ⟨some "a.png", some "", none, none, none, none, false, false, false,
   false, []⟩

/-! ## Theorems -/

theorem batches3_flatten (n : Nat) :
    ∀ l : List α, l.length ≤ n → (batches3 l).flatten = l := by
  induction n with
  | zero =>
    intro l h
    have hl : l = [] := List.length_eq_zero.mp (Nat.le_zero.mp h)
    subst hl
    simp [batches3]
  | succ n ih =>
    intro l h
    match l with
    | [] => simp [batches3]
    | [a] => simp [batches3]
    | [a, b] => simp [batches3]
    | a :: b :: c :: rest =>
      have hlen : rest.length ≤ n := by
        simp only [List.length_cons] at h
        omega
      simp [batches3, ih rest hlen]

theorem batches3_sizes (n : Nat) :
    ∀ l : List α, l.length ≤ n →
      ∀ b ∈ batches3 l, 0 < b.length ∧ b.length ≤ 3 := by
  induction n with
  | zero =>
    intro l h
    have hl : l = [] := List.length_eq_zero.mp (Nat.le_zero.mp h)
    subst hl
    simp [batches3]
  | succ n ih =>
    intro l h b hb
    match l with
    | [] => simp [batches3] at hb
    | [a] =>
      simp only [batches3, List.mem_singleton] at hb
      subst hb
      simp
    | [a, b0] =>
      simp only [batches3, List.mem_singleton] at hb
      subst hb
      simp
    | a :: b0 :: c :: rest =>
      simp only [batches3, List.mem_cons] at hb
      rcases hb with hb | hb
      · subst hb
        simp
      · have hlen : rest.length ≤ n := by
          simp only [List.length_cons] at h
          omega
        exact ih rest hlen b hb

theorem crawlBatches_ok (analyze : String → Except String α) (n : Nat) :
    ∀ l : List String, l.length ≤ n →
      crawlBatches analyze false l = .ok (l.map (guardedCheck analyze)) := by
  induction n with
  | zero =>
    intro l h
    have hl : l = [] := List.length_eq_zero.mp (Nat.le_zero.mp h)
    subst hl
    simp [crawlBatches]
  | succ n ih =>
    intro l h
    match l with
    | [] => simp [crawlBatches]
    | [a] => simp [crawlBatches, runBatch]
    | [a, b] => simp [crawlBatches, runBatch]
    | a :: b :: c :: rest =>
      have hlen : rest.length ≤ n := by
        simp only [List.length_cons] at h
        omega
      simp [crawlBatches, ih rest hlen, runBatch]

theorem crawlBatches_batchwise (analyze : String → Except String α) (n : Nat) :
    ∀ l : List String, l.length ≤ n →
      crawlBatches analyze false l =
        .ok ((batches3 l).map (runBatch analyze)).flatten := by
  induction n with
  | zero =>
    intro l h
    have hl : l = [] := List.length_eq_zero.mp (Nat.le_zero.mp h)
    subst hl
    simp [crawlBatches, batches3]
  | succ n ih =>
    intro l h
    match l with
    | [] => simp [crawlBatches, batches3]
    | [a] => simp [crawlBatches, batches3]
    | [a, b] => simp [crawlBatches, batches3]
    | a :: b :: c :: rest =>
      have hlen : rest.length ≤ n := by
        simp only [List.length_cons] at h
        omega
      simp [crawlBatches, batches3, ih rest hlen]

/-! ### Lemmas about the discovery traversal -/

theorem filterLinkC_eq_filterLink : filterLinkC = filterLink := rfl

theorem enqueueLinksC_eq_enqueueLinks (d : String) (v : List String) :
    ∀ links toVisit,
      enqueueLinksC d v links toVisit = enqueueLinks d v links toVisit := by
  intro links
  induction links with
  | nil => intro toVisit; simp [enqueueLinksC, enqueueLinks]
  | cons link rest ih =>
    intro toVisit
    simp only [enqueueLinksC, enqueueLinks, filterLinkC_eq_filterLink, ih]

theorem crawlLoopC_eq_crawlLoop (env : LinkEnv) (d : String) :
    ∀ fuel visited toVisit discovered,
      crawlLoopC env d fuel visited toVisit discovered =
        crawlLoop env d fuel visited toVisit discovered := by
  intro fuel
  induction fuel with
  | zero => intro v t dd; simp [crawlLoopC, crawlLoop]
  | succ fuel ih =>
    intro v t dd
    match t with
    | [] => simp [crawlLoopC, crawlLoop]
    | currentUrl :: restQueue =>
      simp only [crawlLoopC, crawlLoop, enqueueLinksC_eq_enqueueLinks, ih]

/-- filterLink accepts only links on the start domain. -/
theorem filterLink_hostname {d : String} {u : Url} {s : String}
    (h : filterLink d u = some s) : u.hostname = d := by
  by_contra hne
  simp [filterLink, hne] at h

/-- filterLink accepts only links whose normalized URL avoids every
excluded extension (the check precedes the trailing-slash strip). -/
theorem filterLink_no_excluded_extension {d : String} {u : Url} {s : String}
    (h : filterLink d u = some s) :
    ∀ ext ∈ excludeExtensions, jsEndsWith (jsToLower u.normalized) ext = false := by
  intro ext hext
  by_contra hends
  simp only [Bool.not_eq_false] at hends
  have hany : excludeExtensions.any
      (fun e => jsEndsWith (jsToLower u.normalized) e) = true :=
    List.any_eq_true.mpr ⟨ext, hext, hends⟩
  by_cases hh : u.hostname = d
  · simp [filterLink, hh, hany] at h
  · simp [filterLink, hh] at h

/-- Everything in the output queue of enqueueLinks was already queued or
passed the filter for some processed link. -/
theorem enqueueLinks_mem (d : String) (v : List String) :
    ∀ links toVisit s, s ∈ enqueueLinks d v links toVisit →
      s ∈ toVisit ∨ ∃ u ∈ links, filterLink d u = some s := by
  intro links
  induction links with
  | nil =>
    intro toVisit s hs
    simp only [enqueueLinks] at hs
    exact Or.inl hs
  | cons link rest ih =>
    intro toVisit s hs
    simp only [enqueueLinks] at hs
    rcases hfl : filterLink d link with _ | finalUrl
    · simp only [hfl] at hs
      rcases ih toVisit s hs with h | ⟨u, hu, hfu⟩
      · exact Or.inl h
      · exact Or.inr ⟨u, List.mem_cons_of_mem _ hu, hfu⟩
    · simp only [hfl] at hs
      by_cases hdup : v.contains finalUrl || toVisit.contains finalUrl
      · rw [if_pos hdup] at hs
        rcases ih toVisit s hs with h | ⟨u, hu, hfu⟩
        · exact Or.inl h
        · exact Or.inr ⟨u, List.mem_cons_of_mem _ hu, hfu⟩
      · rw [if_neg hdup] at hs
        rcases ih (toVisit ++ [finalUrl]) s hs with h | ⟨u, hu, hfu⟩
        · rcases List.mem_append.mp h with h | h
          · exact Or.inl h
          · have : s = finalUrl := by simpa using h
            subst this
            exact Or.inr ⟨link, List.mem_cons_self _ _, hfl⟩
        · exact Or.inr ⟨u, List.mem_cons_of_mem _ hu, hfu⟩

/-- enqueueLinks preserves queue duplicate-freedom and disjointness from
the visited set. -/
theorem enqueueLinks_nodup_notVisited (d : String) (v : List String) :
    ∀ links toVisit, toVisit.Nodup → (∀ s ∈ toVisit, s ∉ v) →
      (enqueueLinks d v links toVisit).Nodup ∧
        ∀ s ∈ enqueueLinks d v links toVisit, s ∉ v := by
  intro links
  induction links with
  | nil =>
    intro toVisit hnd hnv
    simpa [enqueueLinks] using ⟨hnd, hnv⟩
  | cons link rest ih =>
    intro toVisit hnd hnv
    simp only [enqueueLinks]
    rcases hfl : filterLink d link with _ | finalUrl
    · simp only [hfl]
      exact ih toVisit hnd hnv
    · simp only [hfl]
      by_cases hdup : v.contains finalUrl || toVisit.contains finalUrl
      · rw [if_pos hdup]
        exact ih toVisit hnd hnv
      · rw [if_neg hdup]
        have hnotv : finalUrl ∉ v := by
          intro hmem
          exact hdup (Bool.or_inl (List.elem_iff.mpr hmem))
        have hnott : finalUrl ∉ toVisit := by
          intro hmem
          exact hdup (Bool.or_inr (List.elem_iff.mpr hmem))
        refine ih (toVisit ++ [finalUrl]) ?_ ?_
        · simpa [List.nodup_append] using ⟨hnd, hnott⟩
        · intro s hs
          rcases List.mem_append.mp hs with h | h
          · exact hnv s h
          · have : s = finalUrl := by simpa using h
            subst this
            exact hnotv

/-- Main invariant of the shared while loop: the discovered list stays
duplicate-free, and every discovered URL either was already
discovered/queued or passed the filter for some link. -/
theorem crawlLoop_spec (env : LinkEnv) (d : String)
    (P : String → Prop)
    (hP : ∀ u s, filterLink d u = some s → P s) :
    ∀ fuel visited toVisit discovered,
      discovered.Nodup →
      toVisit.Nodup →
      (∀ s ∈ toVisit, s ∉ visited) →
      (∀ s, s ∈ visited ↔ s ∈ discovered) →
      (∀ s ∈ toVisit, P s) →
      (∀ s ∈ discovered, P s) →
      (crawlLoop env d fuel visited toVisit discovered).Nodup ∧
        ∀ s ∈ crawlLoop env d fuel visited toVisit discovered, P s := by
  intro fuel
  induction fuel with
  | zero =>
    intro visited toVisit discovered h1 _ _ _ _ h6
    exact ⟨h1, h6⟩
  | succ fuel ih =>
    intro visited toVisit discovered h1 h2 h3 h4 h5 h6
    match toVisit with
    | [] =>
      exact ⟨h1, h6⟩
    | currentUrl :: restQueue =>
      have hcur_nv : currentUrl ∉ visited := h3 currentUrl (List.mem_cons_self _ _)
      have hcontains : visited.contains currentUrl = false := by
        by_contra hc
        simp only [Bool.not_eq_false] at hc
        exact hcur_nv (List.elem_iff.mp hc)
      simp only [crawlLoop, hcontains, Bool.false_eq_true, if_false]
      have hcur_nd : currentUrl ∉ discovered := fun hmem =>
        hcur_nv ((h4 currentUrl).mpr hmem)
      have hrest_nd : restQueue.Nodup := h2.of_cons
      have hcur_nr : currentUrl ∉ restQueue := (List.nodup_cons.mp h2).1
      have hd' : (discovered ++ [currentUrl]).Nodup := by
        simpa [List.nodup_append] using ⟨h1, hcur_nd⟩
      have hrest_nv : ∀ s ∈ restQueue, s ∉ currentUrl :: visited := by
        intro s hs hmem
        rcases List.mem_cons.mp hmem with h | h
        · exact hcur_nr (h ▸ hs)
        · exact h3 s (List.mem_cons_of_mem _ hs) h
      obtain ⟨henq_nd, henq_nv⟩ :=
        enqueueLinks_nodup_notVisited d (currentUrl :: visited)
          ((env currentUrl).getD []) restQueue hrest_nd hrest_nv
      have h4' : ∀ s, s ∈ currentUrl :: visited ↔ s ∈ discovered ++ [currentUrl] := by
        intro s
        constructor
        · intro h
          rcases List.mem_cons.mp h with h | h
          · exact List.mem_append.mpr (Or.inr (by simp [h]))
          · exact List.mem_append.mpr (Or.inl ((h4 s).mp h))
        · intro h
          rcases List.mem_append.mp h with h | h
          · exact List.mem_cons_of_mem _ ((h4 s).mpr h)
          · exact List.mem_cons.mpr (Or.inl (by simpa using h))
      have h5' : ∀ s ∈ enqueueLinks d (currentUrl :: visited)
          ((env currentUrl).getD []) restQueue, P s := by
        intro s hs
        rcases enqueueLinks_mem d (currentUrl :: visited)
            ((env currentUrl).getD []) restQueue s hs with h | ⟨u, _, hfu⟩
        · exact h5 s (List.mem_cons_of_mem _ h)
        · exact hP u s hfu
      have h6' : ∀ s ∈ discovered ++ [currentUrl], P s := by
        intro s hs
        rcases List.mem_append.mp hs with h | h
        · exact h6 s h
        · have : s = currentUrl := by simpa using h
          exact this ▸ h5 currentUrl (List.mem_cons_self _ _)
      exact ih (currentUrl :: visited) _ (discovered ++ [currentUrl])
        hd' henq_nd henq_nv h4' h5' h6'

/-! ## Claim theorems -/

/-- The forEach walk only ever pushes empty-heading and level-skip
issues; the h1-count issues come from the separate check after it. -/
theorem analyzeHeadingsWalk_types :
    ∀ (hs : List Heading) (idx prev : Nat),
      ∀ issue ∈ analyzeHeadingsWalk hs idx prev,
        issue.type = "空の見出し" ∨ issue.type = "見出しレベルスキップ" := by
  intro hs
  induction hs with
  | nil => intro idx prev issue h; simp [analyzeHeadingsWalk] at h
  | cons h rest ih =>
    intro idx prev issue hmem
    simp only [analyzeHeadingsWalk, List.mem_append] at hmem
    rcases hmem with (hmem | hmem) | hmem
    · split at hmem
      · simp only [List.mem_singleton] at hmem
        subst hmem
        left; rfl
      · simp at hmem
    · split at hmem
      · simp only [List.mem_singleton] at hmem
        subst hmem
        right; rfl
      · simp at hmem
    · exact ih (idx + 1) h.level issue hmem

theorem analyzeHeadingsWalk_filter_h1Type (hs : List Heading) (t : String)
    (ht : t = "h1なし" ∨ t = "複数h1") :
    (analyzeHeadingsWalk hs 0 0).filter (fun i => i.type == t) = [] := by
  rw [List.filter_eq_nil_iff]
  intro issue hmem
  rcases analyzeHeadingsWalk_types hs 0 0 issue hmem with h | h <;>
    rcases ht with ht | ht <;> simp [h, ht]

/-- C6: a document with zero h1 elements yields exactly one missing-h1
issue, of severity error; a document with n > 1 h1 elements yields exactly
one multiple-h1 issue, a warning whose message names the count n; a
document with exactly one h1 yields neither. -/
theorem c6_h1_count_issues (headings : List Heading) :
    ((headings.filter (fun h => h.level == 1)).length = 0 →
      (analyzeHeadings headings).filter (fun i => i.type == "h1なし")
          = [missingH1Issue] ∧
        missingH1Issue.severity = "error" ∧
        (analyzeHeadings headings).filter (fun i => i.type == "複数h1") = []) ∧
    ((headings.filter (fun h => h.level == 1)).length > 1 →
      (analyzeHeadings headings).filter (fun i => i.type == "複数h1")
          = [multipleH1Issue (headings.filter (fun h => h.level == 1)).length] ∧
        (multipleH1Issue (headings.filter (fun h => h.level == 1)).length).severity
          = "warning" ∧
        (multipleH1Issue (headings.filter (fun h => h.level == 1)).length).message
          = "h1見出しが複数あります（" ++
            toString (headings.filter (fun h => h.level == 1)).length ++ "個）" ∧
        (analyzeHeadings headings).filter (fun i => i.type == "h1なし") = []) ∧
    ((headings.filter (fun h => h.level == 1)).length = 1 →
      (analyzeHeadings headings).filter (fun i => i.type == "h1なし") = [] ∧
      (analyzeHeadings headings).filter (fun i => i.type == "複数h1") = []) := by
  have hw1 := analyzeHeadingsWalk_filter_h1Type headings "h1なし" (Or.inl rfl)
  have hw2 := analyzeHeadingsWalk_filter_h1Type headings "複数h1" (Or.inr rfl)
  refine ⟨?_, ?_, ?_⟩ <;> intro hn
  · simp [analyzeHeadings, List.filter_append, hw1, hw2, hn,
      missingH1Issue, multipleH1Issue]
  · have h0 : ¬ (headings.filter (fun h => h.level == 1)).length = 0 := by omega
    simp [analyzeHeadings, List.filter_append, hw1, hw2, h0, hn,
      missingH1Issue, multipleH1Issue]
  · have h0 : ¬ (headings.filter (fun h => h.level == 1)).length = 0 := by omega
    have h2 : ¬ (headings.filter (fun h => h.level == 1)).length > 1 := by omega
    simp [analyzeHeadings, List.filter_append, hw1, hw2, h0, h2]

/-- C6 witness: concrete documents with zero, two, and one h1. -/
theorem c6_h1_count_issues_witness :
    ((analyzeHeadings [⟨2, "Intro", 0⟩]).filter (fun i => i.type == "h1なし")
        = [missingH1Issue] ∧
      missingH1Issue.severity = "error" ∧
      (analyzeHeadings [⟨2, "Intro", 0⟩]).filter (fun i => i.type == "複数h1") = []) ∧
    ((analyzeHeadings [⟨1, "A", 0⟩, ⟨1, "B", 0⟩]).filter
        (fun i => i.type == "複数h1") = [multipleH1Issue 2] ∧
      (multipleH1Issue 2).severity = "warning" ∧
      (multipleH1Issue 2).message = "h1見出しが複数あります（" ++ toString 2 ++ "個）" ∧
      (analyzeHeadings [⟨1, "A", 0⟩, ⟨1, "B", 0⟩]).filter
        (fun i => i.type == "h1なし") = []) ∧
    ((analyzeHeadings [⟨1, "A", 0⟩]).filter (fun i => i.type == "h1なし") = [] ∧
      (analyzeHeadings [⟨1, "A", 0⟩]).filter (fun i => i.type == "複数h1") = []) :=
  ⟨(c6_h1_count_issues [⟨2, "Intro", 0⟩]).1 (by decide),
   by
     have h := (c6_h1_count_issues [⟨1, "A", 0⟩, ⟨1, "B", 0⟩]).2.1 (by decide)
     simpa using h,
   (c6_h1_count_issues [⟨1, "A", 0⟩]).2.2 (by decide)⟩

/-- C7: the fallback path computes exactly the four documented synthetic
score formulas, and a failing fallback returns all-zero scores with an
empty findings list. -/
theorem c7_fallback_score_formulas (loadTime : Nat) (m : BasicMetrics) :
    (calculateBasicScores (some (loadTime, m))).scores.performance
        = max 0 (100 - Int.ofNat (loadTime / 50)) ∧
    (calculateBasicScores (some (loadTime, m))).scores.accessibility
        = max 0 (100 - 10 * Int.ofNat m.imagesWithoutAlt) ∧
    (calculateBasicScores (some (loadTime, m))).scores.seo
        = 40 * btoi m.hasTitle + 40 * btoi m.hasDescription + 20 * btoi m.hasH1 ∧
    (calculateBasicScores (some (loadTime, m))).scores.bestpractices
        = max 0 (100 - max 0 (Int.ofNat m.resourceCount - 50)) ∧
    (calculateBasicScores none).scores = ⟨0, 0, 0, 0⟩ ∧
    (calculateBasicScores none).accessibility = [] := by
  refine ⟨rfl, ?_, ?_, rfl, rfl, rfl⟩
  · show max 0 (100 - Int.ofNat m.imagesWithoutAlt * 10)
        = max 0 (100 - 10 * Int.ofNat m.imagesWithoutAlt)
    rw [Int.mul_comm]
  · show (if m.hasTitle then (40 : Int) else 0) + (if m.hasDescription then 40 else 0)
        + (if m.hasH1 then 20 else 0)
        = 40 * btoi m.hasTitle + 40 * btoi m.hasDescription + 20 * btoi m.hasH1
    cases m.hasTitle <;> cases m.hasDescription <;> cases m.hasH1 <;>
      simp [btoi]

/-- C9: on page https://x.com/dir/page the root-relative src /img/a.png
resolves to https://x.com/img/a.png and the protocol-relative src
//cdn.x.com/a.png resolves to https://cdn.x.com/a.png. -/
theorem c9_src_resolution_roundtrip :
    resolveSrc "https://x.com/dir/page" (some "/img/a.png")
        = some "https://x.com/img/a.png" ∧
    resolveSrc "https://x.com/dir/page" (some "//cdn.x.com/a.png")
        = some "https://cdn.x.com/a.png" := by
  decide

theorem sizeIssues_types (sizeEnv : String → Option Nat)
    (absoluteSrc : Option String) :
    ∀ x ∈ sizeIssues sizeEnv absoluteSrc, x.type = "ファイルサイズ過大" := by
  intro x hx
  unfold sizeIssues at hx
  rcases absoluteSrc with _ | s
  · simp at hx
  · repeat' split at hx
    all_goals
      first
        | (simp only [List.mem_singleton] at hx; subst hx; rfl)
        | simp at hx

theorem svgIssues_types (svg : SvgEl) :
    ∀ x ∈ svgIssues svg, x.type = "SVGアクセシビリティ" := by
  intro x hx
  unfold svgIssues at hx
  split at hx
  · simp only [List.mem_singleton] at hx
    subst hx
    rfl
  · simp at hx

theorem imgIssues_filter_missingAlt (c : String)
    (sizeEnv : String → Option Nat) (im : Img) :
    (imgIssues c sizeEnv im).filter (fun issue => issue.type == "alt属性なし")
      = if im.alt = none then [missingAltIssue (resolveSrc c im.src)]
        else [] := by
  unfold imgIssues
  have h1 : (sizeIssues sizeEnv (resolveSrc c im.src)).filter
      (fun issue => issue.type == "alt属性なし") = [] := by
    rw [List.filter_eq_nil_iff]
    intro x hx
    have := sizeIssues_types sizeEnv (resolveSrc c im.src) x hx
    simp [this]
  have h2 : (if !optTruthy im.width || !optTruthy im.height then
      [(⟨"サイズ不備", "img", resolveSrc c im.src,
        "width属性またはheight属性が設定されていません", "warning", none⟩ : ImgIssue)]
      else []).filter (fun issue => issue.type == "alt属性なし") = [] := by
    split <;> simp
  by_cases halt : im.alt = none
  · simp only [halt, if_true, List.filter_append, h1, h2, List.append_nil]
    simp [missingAltIssue]
  · simp only [halt, if_false, List.filter_append, h1, h2, List.append_nil]
    simp

/-- The missing-alt issues of analyzeImages are exactly one per img whose
alt attribute is absent, each carrying that image's resolved source. -/
theorem analyzeImages_missingAlt_eq (c : String)
    (sizeEnv : String → Option Nat) (imgs : List Img) (svgs : List SvgEl) :
    (analyzeImages c sizeEnv imgs svgs).filter
        (fun issue => issue.type == "alt属性なし")
      = (imgs.filter (fun im => im.alt == none)).map
          (fun im => missingAltIssue (resolveSrc c im.src)) := by
  unfold analyzeImages
  rw [List.filter_append]
  have hsvg : ((svgs.map svgIssues).flatten).filter
      (fun issue => issue.type == "alt属性なし") = [] := by
    rw [List.filter_eq_nil_iff]
    intro x hx
    rcases List.mem_flatten.mp hx with ⟨l, hl, hxl⟩
    rcases List.mem_map.mp hl with ⟨svg, _, rfl⟩
    have := svgIssues_types svg x hxl
    simp [this]
  rw [hsvg, List.append_nil]
  induction imgs with
  | nil => simp
  | cons im rest ih =>
    simp only [List.map_cons, List.flatten_cons, List.filter_append, ih,
      List.filter_cons]
    rw [imgIssues_filter_missingAlt]
    by_cases halt : im.alt = none
    · simp [halt]
    · simp [halt]

theorem imgRecordsFrom_length (c : String) :
    ∀ (idx : Nat) (imgs : List Img),
      (imgRecordsFrom c idx imgs).length = imgs.length := by
  intro idx imgs
  induction imgs generalizing idx with
  | nil => simp [imgRecordsFrom]
  | cons im rest ih => simp [imgRecordsFrom, ih]

theorem imgRecordsFrom_getElem? (c : String) :
    ∀ (imgs : List Img) (idx i : Nat),
      (imgRecordsFrom c idx imgs)[i]?
        = (imgs[i]?).map (fun im => imgRecord c (idx + i) im) := by
  intro imgs
  induction imgs with
  | nil => intro idx i; simp [imgRecordsFrom]
  | cons im rest ih =>
    intro idx i
    cases i with
    | zero => simp [imgRecordsFrom]
    | succ i =>
      have harith : idx + 1 + i = idx + (i + 1) := by omega
      simp only [imgRecordsFrom, List.getElem?_cons_succ, ih (idx + 1) i, harith]

/-- C8: the Image Analyzer emits exactly one missing-alt error per img
whose alt attribute is absent, carrying that image's resolved absolute
source, and none for any img whose alt attribute is present (including the
empty string): the filtered missing-alt issue list equals the map of the
alt-less imgs to their resolved sources. -/
theorem c8_missing_alt_iff_attribute_absent (currentUrl : String)
    (sizeEnv : String → Option Nat) (imgs : List Img) (svgs : List SvgEl) :
    (analyzeImages currentUrl sizeEnv imgs svgs).filter
        (fun issue => issue.type == "alt属性なし")
      = (imgs.filter (fun im => im.alt == none)).map
          (fun im => missingAltIssue (resolveSrc currentUrl im.src)) :=
  analyzeImages_missingAlt_eq currentUrl sizeEnv imgs svgs

/-- C10: an img whose alt attribute is the empty string is listed by
getAllImages with hasAlt = false, while the Image Analyzer emits no
missing-alt error for it (its per-image issue contribution holds none, and
globally the missing-alt issues come only from imgs with the attribute
absent). -/
theorem c10_empty_alt_listed_without_issue (currentUrl : String)
    (sizeEnv : String → Option Nat) (imgs : List Img) (svgs : List SvgEl)
    (i : Nat) (hi : i < imgs.length)
    (he : imgs[i].alt = some "") :
    ((getAllImages currentUrl imgs svgs)[i]?).map ImageRecord.hasAlt
        = some false ∧
    (imgIssues currentUrl sizeEnv imgs[i]).filter
        (fun issue => issue.type == "alt属性なし") = [] ∧
    (analyzeImages currentUrl sizeEnv imgs svgs).filter
        (fun issue => issue.type == "alt属性なし")
      = (imgs.filter (fun im => im.alt == none)).map
          (fun im => missingAltIssue (resolveSrc currentUrl im.src)) := by
  refine ⟨?_, ?_, analyzeImages_missingAlt_eq currentUrl sizeEnv imgs svgs⟩
  · unfold getAllImages
    rw [List.getElem?_append, if_pos (by rw [imgRecordsFrom_length]; exact hi)]
    rw [imgRecordsFrom_getElem? currentUrl imgs 0 i,
      List.getElem?_eq_getElem hi]
    show some (imgRecord currentUrl (0 + i) imgs[i]).hasAlt = some false
    have hfield : (imgRecord currentUrl (0 + i) imgs[i]).hasAlt
        = optTruthy imgs[i].alt := rfl
    rw [hfield, he]
    rfl
  · rw [imgIssues_filter_missingAlt]
    rw [if_neg (by simp [he])]

/-- C10 witness: a concrete img with alt set to the empty string. -/
theorem c10_empty_alt_listed_without_issue_witness :
    [c10img][0].alt = some "" ∧
    ((getAllImages "https://x.com/" [c10img] [])[0]?).map ImageRecord.hasAlt
        = some false ∧
    (imgIssues "https://x.com/" (fun _ => none) [c10img][0]).filter
        (fun issue => issue.type == "alt属性なし") = [] :=
  ⟨by decide,
   (c10_empty_alt_listed_without_issue "https://x.com/" (fun _ => none)
      [c10img] [] 0 Nat.one_pos (by decide)).1,
   (c10_empty_alt_listed_without_issue "https://x.com/" (fun _ => none)
      [c10img] [] 0 Nat.one_pos (by decide)).2.1⟩

/-- With an explicitly supplied URL list, crawlSite resolves to the
aggregate of one guarded per-page outcome per URL, in order. -/
theorem crawlSite_some_urls (discover : String → List String)
    (analyze : String → Except String α) (startUrl : String)
    (us : List String) :
    crawlSite discover analyze startUrl (some us)
      = .ok ⟨startUrl, us.length, us.map (guardedCheck analyze)⟩ := by
  show (match crawlBatches analyze false us with
    | Except.ok results =>
      Except.ok (⟨startUrl, results.length, results⟩ : CrawlResult α)
    | Except.error e => Except.error e)
      = .ok ⟨startUrl, us.length, us.map (guardedCheck analyze)⟩
  rw [crawlBatches_ok analyze us.length us le_rfl]
  simp

/-- C1: the claim states that crawlSite with no urls argument runs the
Link Discoverer and returns an aggregated CrawlResult without throwing.
The code contradicts it: the per-batch progress log reads urls.length on
the null urls argument, so every discovery-driven crawl rejects with a
TypeError after its first batch.  Concrete evaluation: discovery of
https://x.com/ in a link-free environment yields exactly one URL and the
page analysis of every URL succeeds, yet crawlSite returns the TypeError
instead of a CrawlResult. -/
theorem c1_crawlSite_null_urls_throws :
    discoverUrls (fun _ => some []) 2 ⟨"https:", "x.com", "/", []⟩
        = ["https://x.com/"] ∧
    crawlSite
        (fun _ => discoverUrls (fun _ => some []) 2 ⟨"https:", "x.com", "/", []⟩)
        (fun u => Except.ok u) "https://x.com/" none
      = Except.error
          "TypeError: Cannot read properties of null (reading 'length')" :=
  ⟨by decide, by rfl⟩

/-- C2: for an explicitly supplied URL list where the page analysis throws
for exactly one index j and succeeds elsewhere, crawlSite returns a
CrawlResult with one result entry per URL, the j-th being the minimal
error record with a non-empty message and every other being the full page
result. -/
theorem c2_crawl_resilience (discover : String → List String)
    (analyze : String → Except String α) (startUrl : String)
    (us : List String) (j : Nat) (hj : j < us.length) (m : String)
    (hfail : analyze us[j] = .error m)
    (hok : ∀ i, (hi : i < us.length) → i ≠ j → ∃ r, analyze us[i] = .ok r) :
    ∃ res : CrawlResult α,
      crawlSite discover analyze startUrl (some us) = .ok res ∧
      res.results.length = us.length ∧
      res.results[j]? = some (.failed us[j] (errMsg m)) ∧
      errMsg m ≠ "" ∧
      ∀ i, (hi : i < us.length) → i ≠ j →
        ∃ r, analyze us[i] = .ok r ∧ res.results[i]? = some (.ok r) := by
  refine ⟨⟨startUrl, us.length, us.map (guardedCheck analyze)⟩,
    crawlSite_some_urls discover analyze startUrl us, by simp, ?_, ?_, ?_⟩
  · show (us.map (guardedCheck analyze))[j]? = _
    rw [List.getElem?_map, List.getElem?_eq_getElem hj]
    simp [guardedCheck, hfail]
  · unfold errMsg
    split
    · simp
    · assumption
  · intro i hi hne
    obtain ⟨r, hr⟩ := hok i hi hne
    refine ⟨r, hr, ?_⟩
    show (us.map (guardedCheck analyze))[i]? = _
    rw [List.getElem?_map, List.getElem?_eq_getElem hi]
    simp [guardedCheck, hr]

/-- C2 witness: three URLs of which exactly the second fails. -/
theorem c2_crawl_resilience_witness :
    (1 < ["a", "b", "c"].length ∧
      c2analyze "b" = Except.error "navigation timeout") ∧
    ∃ res : CrawlResult String,
      crawlSite (fun _ => []) c2analyze "https://x.com/" (some ["a", "b", "c"])
          = .ok res ∧
      res.results.length = ["a", "b", "c"].length ∧
      res.results[1]? = some (.failed ["a", "b", "c"][1]
        (errMsg "navigation timeout")) ∧
      errMsg "navigation timeout" ≠ "" ∧
      ∀ i, (hi : i < ["a", "b", "c"].length) → i ≠ 1 →
        ∃ r, c2analyze (["a", "b", "c"][i]) = .ok r ∧
          res.results[i]? = some (.ok r) :=
  ⟨⟨by decide, by rfl⟩,
   c2_crawl_resilience (fun _ => []) c2analyze "https://x.com/"
     ["a", "b", "c"] 1 (by decide) "navigation timeout" (by rfl)
     (by
       intro i hi hne
       have hi3 : i < 3 := by simpa using hi
       interval_cases i
       · exact ⟨"a", rfl⟩
       · exact absurd rfl hne
       · exact ⟨"c", rfl⟩)⟩

/-- C3: the crawl dispatches its page analyses in consecutive batches of
at most 3 URLs (each nonempty, the last possibly smaller), the batches
concatenate to the full URL list in order, and the batch loop is exactly
the sequential composition of those batches — the following batch's
analyses begin only after the previous batch has settled, so at most 3
page analyses are ever in flight. -/
theorem c3_bounded_batch_concurrency (analyze : String → Except String α)
    (urls : List String) :
    (∀ b ∈ batches3 urls, 0 < b.length ∧ b.length ≤ 3) ∧
    (batches3 urls).flatten = urls ∧
    crawlBatches analyze false urls
      = .ok ((batches3 urls).map (runBatch analyze)).flatten :=
  ⟨batches3_sizes urls.length urls le_rfl,
   batches3_flatten urls.length urls le_rfl,
   crawlBatches_batchwise analyze urls.length urls le_rfl⟩

/-- C3 witness: four URLs split into a batch of 3 and a batch of 1. -/
theorem c3_bounded_batch_concurrency_witness :
    (∀ b ∈ batches3 ["a", "b", "c", "d"], 0 < b.length ∧ b.length ≤ 3) ∧
    (batches3 ["a", "b", "c", "d"]).flatten = ["a", "b", "c", "d"] ∧
    crawlBatches (fun u => Except.ok u) false ["a", "b", "c", "d"]
      = .ok ((batches3 ["a", "b", "c", "d"]).map
          (runBatch (fun u => Except.ok u))).flatten :=
  c3_bounded_batch_concurrency (fun u => Except.ok u) ["a", "b", "c", "d"]

/-- C4 counterexample: the extension filter tests the normalized URL
before the trailing slash is stripped, so the link /file.pdf/ on the same
host survives every filter and is enqueued (and returned) as
https://x.com/file.pdf, which ends in .pdf — refuting the claim that no
enqueued URL ends in an excluded non-HTML extension. -/
theorem c4_counterexample_pdf_enqueued :
    discoverUrls
        (fun s => if s = "https://x.com/" then
          some [⟨"https:", "x.com", "/file.pdf/", []⟩] else some [])
        3 ⟨"https:", "x.com", "/", []⟩
      = ["https://x.com/", "https://x.com/file.pdf"] ∧
    jsEndsWith (jsToLower "https://x.com/file.pdf") ".pdf" = true ∧
    ".pdf" ∈ excludeExtensions := by
  refine ⟨by decide, by decide, by decide⟩

/-- C4 (amended): the discovery traversal returns a duplicate-free list
(no normalized URL is enqueued or returned twice), and every returned URL
is either the normalized seed (which is enqueued unfiltered) or arose from
a link with the start URL's hostname that passed the whole filter — in
particular a link whose normalized URL, BEFORE the trailing-slash strip,
ends in no excluded extension.  (As the counterexample shows, the stripped
form that is actually enqueued can still end in such an extension, and the
seed is never filtered.) -/
theorem c4_discovery_invariants (env : LinkEnv) (fuel : Nat)
    (startUrl : Url) :
    (discoverUrls env fuel startUrl).Nodup ∧
    ∀ s ∈ discoverUrls env fuel startUrl,
      s = normalizeStart startUrl ∨
      ∃ u : Url, u.hostname = startUrl.hostname ∧
        (∀ ext ∈ excludeExtensions,
          jsEndsWith (jsToLower u.normalized) ext = false) ∧
        filterLink startUrl.hostname u = some s := by
  have h := crawlLoop_spec env startUrl.hostname
    (fun s => s = normalizeStart startUrl ∨
      ∃ u : Url, u.hostname = startUrl.hostname ∧
        (∀ ext ∈ excludeExtensions,
          jsEndsWith (jsToLower u.normalized) ext = false) ∧
        filterLink startUrl.hostname u = some s)
    (fun u s hf => Or.inr ⟨u, filterLink_hostname hf,
      filterLink_no_excluded_extension hf, hf⟩)
    fuel [] [normalizeStart startUrl] []
    (by simp) (by simp) (by simp) (by simp)
    (by
      intro s hs
      left
      simpa using hs)
    (by simp)
  exact h

/-- C4 witness: the invariants instantiated at a concrete single-link
environment. -/
theorem c4_discovery_invariants_witness :
    (discoverUrls
        (fun s => if s = "https://x.com/" then
          some [⟨"https:", "x.com", "/about/", []⟩] else some [])
        3 ⟨"https:", "x.com", "/", []⟩).Nodup ∧
    ∀ s ∈ discoverUrls
        (fun s => if s = "https://x.com/" then
          some [⟨"https:", "x.com", "/about/", []⟩] else some [])
        3 ⟨"https:", "x.com", "/", []⟩,
      s = normalizeStart ⟨"https:", "x.com", "/", []⟩ ∨
      ∃ u : Url, u.hostname = Url.hostname ⟨"https:", "x.com", "/", []⟩ ∧
        (∀ ext ∈ excludeExtensions,
          jsEndsWith (jsToLower u.normalized) ext = false) ∧
        filterLink (Url.hostname ⟨"https:", "x.com", "/", []⟩) u = some s :=
  c4_discovery_invariants
    (fun s => if s = "https://x.com/" then
      some [⟨"https:", "x.com", "/about/", []⟩] else some [])
    3 ⟨"https:", "x.com", "/", []⟩

/-- C5: the crawl-planning preview performs the same traversal as the full
discovery — its urls list equals the discoverUrls result and its
totalPages equals that list's length, for every environment, fuel and
start URL. -/
theorem c5_countPages_refines_discoverUrls (env : LinkEnv) (fuel : Nat)
    (startUrl : Url) :
    (countPages env fuel startUrl).urls = discoverUrls env fuel startUrl ∧
    (countPages env fuel startUrl).totalPages
      = (discoverUrls env fuel startUrl).length := by
  unfold countPages discoverUrls
  rw [crawlLoopC_eq_crawlLoop]
  exact ⟨rfl, rfl⟩

end WebChecker
